import Mathlib

/-!
Verification of the token alert pipeline in `src/index.js` (the current
revision: the checkers `checkPumpTokens` / `checkOtherDexTokens` and the
`mainLoop` scheduler).

Modelling conventions for the shallow embedding:
* JS numbers that can be `NaN` are modelled as `Option ℚ` (`Option.none` = NaN);
  every comparison with a `NaN` operand is `false`, as in JS.
* A JS date value is `Option ℚ` of its parsed epoch milliseconds
  (`Option.none` = an unparsable date, whose `getTime()` is NaN).
* The two `LRUCache` instances are modelled as association lists from address
  to the stored timestamp, queried lazily against the per-tier TTL
  (`lru-cache` treats an entry as stale only once its age strictly exceeds
  the TTL: `now - start > ttl`).  The
  capacity bound (`max: 1000`, reached by neither any claim nor any test
  input here) is not modelled.
* Network effects are an environment: fetch results are data (the bounded
  `retry` of the fetchers is transport plumbing behind them), and webhook
  delivery success is an oracle `sendOk`.  A task of a `Promise.all` that
  throws makes the awaited `Promise.all` reject, which is modelled as the
  sequential fold short-circuiting with `Except.error` carrying the state at
  the throw; `pLimit(5)` bounds fan-out only and per-token tasks touch
  disjoint keys, so the list-order linearization is faithful.
* `Date.now()` is a single `now` per round.
-/

attribute [local semireducible] Rat.mul Rat.inv Rat.add Rat.sub

namespace PumpBot

/-- A parsed JS date in epoch milliseconds; `Option.none` is an unparsable
date (its `getTime()` is NaN). -/
abbrev JsDate := Option ℚ

/-- Alert tier of a classified token. -/
inductive Tier where
  | none
  | mid
  | high
deriving DecidableEq, Repr

/-- Destination webhook (`MID_TIER_WEBHOOK_CLIENT` / `HIGH_TIER_WEBHOOK_CLIENT`). -/
inductive Channel where
  | mid
  | high
deriving DecidableEq, Repr

/-- One webhook delivery attempt observed during a round. -/
structure Attempt where
  addr : String
  channel : Channel
  ok : Bool
deriving DecidableEq, Repr

/-- An LRU ledger: addresses with the timestamp `Date.now()` stored by `set`.
The head of the list is the most recent `set`; lookups take the first hit. -/
abbrev Ledger := List (String × ℚ)

/-- TTL of `trackedMidTier`: `1000 * 60 * 20` ms (20 minutes). -/
def ttlMid : ℚ := 1000 * 60 * 20

/-- TTL of `trackedHighTier`: `1000 * 60 * 120` ms (2 hours). -/
def ttlHigh : ℚ := 1000 * 60 * 120

/-- First entry stored under address `a`, if any. -/
def lookupEntry : Ledger → String → Option ℚ
  | [], _ => Option.none
  | (k, t) :: rest, a => if k = a then Option.some t else lookupEntry rest a

/-- Semantics of `cache.has(a)`: true when an entry exists and is not stale
(`lru-cache` marks an entry stale only when its age strictly exceeds the
TTL, `now - start > ttl`, so an entry whose age equals the TTL is still
live). -/
def lruHas (l : Ledger) (ttl now : ℚ) (a : String) : Bool :=
  match lookupEntry l a with
  | Option.some t => decide (now - t ≤ ttl)
  | Option.none => false

/-- Semantics of `cache.set(a, t)`: store `t` under `a` (shadowing any older entry). -/
def lruSet (l : Ledger) (a : String) (t : ℚ) : Ledger := (a, t) :: l

/-- JS `x < c` where `x` can be NaN. -/
def jltB (x : Option ℚ) (c : ℚ) : Bool :=
  match x with
  | Option.some v => decide (v < c)
  | Option.none => false

/-- JS `x > c` where `x` can be NaN. -/
def jgtB (x : Option ℚ) (c : ℚ) : Bool :=
  match x with
  | Option.some v => decide (c < v)
  | Option.none => false

/-- JS `x <= c` where `x` can be NaN. -/
def jleB (x : Option ℚ) (c : ℚ) : Bool :=
  match x with
  | Option.some v => decide (v ≤ c)
  | Option.none => false

/-- Source `getTokenAgeMinutes(date)`: `(Date.now() - new Date(date).getTime()) / 60000`;
NaN when the date is unparsable. -/
def getTokenAgeMinutes (date : JsDate) (now : ℚ) : Option ℚ :=
  date.map (fun t => (now - t) / 60000)

/-- Source `details.pairCreatedAt ?? token.createdAt`: the nullish-coalescing pick of
the age source — the fallback fires only when `pairCreatedAt` is absent
(null/undefined), not when it is present but unparsable. -/
def codeAgeSource (pairCreatedAt : Option JsDate) (createdAt : JsDate) : JsDate :=
  pairCreatedAt.getD createdAt

/-- Modelled from the spec: the age source as §4.3/§3 word it, falling back to
the candidate's creation timestamp when the snapshot timestamp is "absent or
unparsable"; defined only to compare against `codeAgeSource`. -/
def specAgeSource (pairCreatedAt : Option JsDate) (createdAt : JsDate) : JsDate :=
  match pairCreatedAt with
  | Option.some (Option.some t) => Option.some t
  | _ => createdAt

/-- Source `shouldSendMid`: `mcap >= 16900 && mcap < 80000 && ageMinutes <= 20`. -/
def shouldSendMid (mcap : ℚ) (ageMinutes : Option ℚ) : Bool :=
  decide (16900 ≤ mcap) && decide (mcap < 80000) && jleB ageMinutes 20

/-- Source `shouldSendHigh`: `mcap >= 80000 && ageMinutes <= 120`. -/
def shouldSendHigh (mcap : ℚ) (ageMinutes : Option ℚ) : Bool :=
  decide (80000 ≤ mcap) && jleB ageMinutes 120

/-- The tier decision the two `shouldSend` conditions encode (they are
mutually exclusive: `mcap < 80000` against `mcap >= 80000`). -/
def classify (mcap : ℚ) (ageMinutes : Option ℚ) : Tier :=
  if shouldSendMid mcap ageMinutes then Tier.mid
  else if shouldSendHigh mcap ageMinutes then Tier.high
  else Tier.none

/-- A Moralis candidate record as `checkPumpTokens` reads it:
`tokenAddress`, `Number(fullyDilutedValuation)` (NaN possible), `createdAt`. -/
structure Candidate where
  tokenAddress : String
  fullyDilutedValuation : Option ℚ
  createdAt : JsDate
deriving DecidableEq, Repr

/-- The Dexscreener detail fields the checker logic reads; `marketCap` may be
absent (`?? 0`), `pairCreatedAt` may be absent or unparsable.  Display-only
fields are omitted. -/
structure Details where
  marketCap : Option ℚ
  pairCreatedAt : Option JsDate
deriving DecidableEq, Repr

/-- A Dexscreener pair as `checkOtherDexTokens` reads it: `dexId`,
`txns?.m5?.buys`, `volume?.m5`, `fdv` (all possibly absent), `pairCreatedAt`. -/
structure DexPair where
  dexId : String
  buys5m : Option ℚ
  volume5m : Option ℚ
  fdv : Option ℚ
  pairCreatedAt : JsDate
deriving DecidableEq, Repr

/-- The external world of one round: fetch results and the delivery oracle. -/
structure Env where
  now : ℚ
  candidates : List Candidate
  details : String → Option Details
  profiles : List String
  pairs : String → List DexPair
  sendOk : Channel → String → Bool

/-- Mutable state threaded through a checker: the two ledgers, the round's
`sentCount`, and the log of delivery attempts. -/
structure PState where
  mid : Ledger
  high : Ledger
  sent : Nat
  attempts : List Attempt
deriving DecidableEq, Repr

/-- Process-level state surviving between rounds: the ledgers and `pollInterval`. -/
structure Sys where
  mid : Ledger
  high : Ledger
  pollInterval : Nat
deriving DecidableEq, Repr

/-- The state a checker ends in, whether it returned or threw. -/
def outState : Except PState PState → PState
  | Except.ok s => s
  | Except.error s => s

/-- The ledger a channel records into. -/
def ledgerOf (s : PState) (c : Channel) : Ledger :=
  match c with
  | Channel.mid => s.mid
  | Channel.high => s.high

/-- The TTL of a channel's ledger. -/
def ttlOf (c : Channel) : ℚ :=
  match c with
  | Channel.mid => ttlMid
  | Channel.high => ttlHigh

/-- Source `trackedX.set(ca, Date.now()); sentCount++` after a successful send. -/
def recordIn (s : PState) (c : Channel) (a : String) (t : ℚ) : PState :=
  match c with
  | Channel.mid => { s with mid := lruSet s.mid a t, sent := s.sent + 1 }
  | Channel.high => { s with high := lruSet s.high a t, sent := s.sent + 1 }

/-- One of the two symmetric notification blocks of `checkPumpTokens`:
`if (shouldSendX && !trackedX.has(ca)) { await sendToDiscord(...); trackedX.set(ca, Date.now()); sentCount++; }`.
The `sendToDiscord` of this revision has no retry and no catch, so a failed
send throws out of the block (`Except.error`). -/
def tierPhase (env : Env) (a : String) (c : Channel) (cond : Bool) (s : PState) :
    Except PState PState :=
  if cond && !(lruHas (ledgerOf s c) (ttlOf c) env.now a) then
    let del := env.sendOk c a
    let s1 : PState := { s with attempts := s.attempts ++ [{ addr := a, channel := c, ok := del }] }
    if del then Except.ok (recordIn s1 c a env.now)
    else Except.error s1
  else Except.ok s

/-- The per-token task of `checkPumpTokens`: FDV/age pre-filter on the raw
candidate, Dexscreener enrichment (skip when absent), then the Mid and High
notification blocks in order. -/
def pumpStep (env : Env) (tok : Candidate) (s : PState) : Except PState PState :=
  if jltB tok.fullyDilutedValuation 16900 || jgtB (getTokenAgeMinutes tok.createdAt env.now) 20 then
    Except.ok s
  else
    match env.details tok.tokenAddress with
    | Option.none => Except.ok s
    | Option.some d =>
      match tierPhase env tok.tokenAddress Channel.mid
          (shouldSendMid (d.marketCap.getD 0)
            (getTokenAgeMinutes (codeAgeSource d.pairCreatedAt tok.createdAt) env.now)) s with
      | Except.error e => Except.error e
      | Except.ok s1 =>
        tierPhase env tok.tokenAddress Channel.high
          (shouldSendHigh (d.marketCap.getD 0)
            (getTokenAgeMinutes (codeAgeSource d.pairCreatedAt tok.createdAt) env.now)) s1

/-- Sequential composition of per-item tasks; the first throw rejects the
whole awaited `Promise.all`. -/
def runSteps {α : Type} (f : α → PState → Except PState PState) :
    List α → PState → Except PState PState
  | [], s => Except.ok s
  | x :: xs, s =>
    match f x s with
    | Except.error e => Except.error e
    | Except.ok s1 => runSteps f xs s1

/-- Source `checkPumpTokens`: run every candidate's task, starting from the given
ledgers with `sentCount = 0`. -/
def checkPumpTokens (env : Env) (mid high : Ledger) : Except PState PState :=
  runSteps (pumpStep env) env.candidates { mid := mid, high := high, sent := 0, attempts := [] }

/-- Source `PUMP_DEXES = new Set(['pumpfun', 'pumpswap'])`. -/
def PUMP_DEXES : List String := ["pumpfun", "pumpswap"]

/-- The inner `for (const pair of pairs)` loop of `checkOtherDexTokens`: skip
pump venues, then on the first pair meeting the FDV/buys/volume/age gate send
on the Mid webhook (`sendToDiscordAlt`), record in `trackedMidTier` and break. -/
def otherPairsLoop (env : Env) (a : String) : List DexPair → PState → Except PState PState
  | [], s => Except.ok s
  | p :: rest, s =>
    if PUMP_DEXES.contains p.dexId then otherPairsLoop env a rest s
    else
      let ageMinutes := getTokenAgeMinutes p.pairCreatedAt env.now
      let buys5m := p.buys5m.getD 0
      let volume5m := p.volume5m.getD 0
      let fdvValue := p.fdv.getD 0
      if decide (16900 ≤ fdvValue) && decide (5 ≤ buys5m) && decide (500 ≤ volume5m) &&
          jleB ageMinutes 20 then
        if env.sendOk Channel.mid a then
          Except.ok
            { s with
              mid := lruSet s.mid a env.now
              sent := s.sent + 1
              attempts := s.attempts ++ [{ addr := a, channel := Channel.mid, ok := true }] }
        else
          Except.error
            { s with attempts := s.attempts ++ [{ addr := a, channel := Channel.mid, ok := false }] }
      else otherPairsLoop env a rest s

/-- The per-profile body of `checkOtherDexTokens`: skip a token already in
either ledger, otherwise scan its pairs. -/
def otherStep (env : Env) (a : String) (s : PState) : Except PState PState :=
  if lruHas s.mid ttlMid env.now a || lruHas s.high ttlHigh env.now a then Except.ok s
  else otherPairsLoop env a (env.pairs a) s

/-- Source `checkOtherDexTokens`: run every profile's body, starting from the given
ledgers with `sentCount = 0`. -/
def checkOtherDexTokens (env : Env) (mid high : Ledger) : Except PState PState :=
  runSteps (otherStep env) env.profiles { mid := mid, high := high, sent := 0, attempts := [] }

/-- The `try` block of `mainLoop`: `checkPumpTokens` then `checkOtherDexTokens`;
an exception anywhere rejects the whole block with the state at the throw. -/
def roundResult (env : Env) (s : Sys) : Except PState (PState × PState) :=
  match checkPumpTokens env s.mid s.high with
  | Except.error e => Except.error e
  | Except.ok r1 =>
    match checkOtherDexTokens env r1.mid r1.high with
    | Except.error e => Except.error e
    | Except.ok r2 => Except.ok (r1, r2)

/-- One `mainLoop` execution: on success set
`pollInterval = totalSent >= 2 ? 15000 : 30000`; on an exception the `catch`
only logs, so the ledgers keep every write made before the throw and
`pollInterval` keeps its previous value; `finally` always schedules the next
round with the current `pollInterval`. -/
def mainLoopStep (env : Env) (s : Sys) : Sys :=
  match roundResult env s with
  | Except.error e => { mid := e.mid, high := e.high, pollInterval := s.pollInterval }
  | Except.ok r =>
    { mid := r.2.mid, high := r.2.high,
      pollInterval := if 2 ≤ r.1.sent + r.2.sent then 15000 else 30000 }

/-- The Dedup Ledger query of the spec (`hasNotified(address, tier)`). -/
def hasNotified (mid high : Ledger) (a : String) (c : Channel) (now : ℚ) : Bool :=
  match c with
  | Channel.mid => lruHas mid ttlMid now a
  | Channel.high => lruHas high ttlHigh now a

/-- Number of logged attempts satisfying a predicate. -/
def countAttempts (l : List Attempt) (p : Attempt → Bool) : Nat := (l.filter p).length

/-- Predicate: attempt for address `a` on channel `c`. -/
def isForPair (a : String) (c : Channel) (x : Attempt) : Bool :=
  decide (x.addr = a) && decide (x.channel = c)

/-- Predicate: attempt for address `a` (any channel). -/
def isForAddr (a : String) (x : Attempt) : Bool := decide (x.addr = a)

/-- Predicate: attempt on a channel other than Mid. -/
def isNonMid (x : Attempt) : Bool := !(decide (x.channel = Channel.mid))

/-- Source `hoursPerBlock = 6`. -/
def hoursPerBlock : Nat := 6

/-- Source `getCurrentMoralisKey()`: index the per-day shuffled key order by
`floor(hoursSinceMidnight / hoursPerBlock) % dailyKeyOrder.length`, where
`hoursSinceMidnight = floor((now - startOfDay) / 3600000)`; `dailyKeyOrder`
and `startOfDay` are fixed at process start. -/
def getCurrentMoralisKey (dailyKeyOrder : List String) (startOfDay now : Nat) : Option String :=
  dailyKeyOrder.get? ((((now - startOfDay) / 3600000) / hoursPerBlock) % dailyKeyOrder.length)

/-- Round environment for C1: one fresh candidate in the High band whose
sends succeed. -/
def envC1 : Env :=
  { now := 300000
    candidates := [{ tokenAddress := "A", fullyDilutedValuation := Option.some 100000,
                     createdAt := Option.some 0 }]
    details := fun a =>
      if a = "A" then
        Option.some { marketCap := Option.some 100000, pairCreatedAt := Option.some (Option.some 0) }
      else Option.none
    profiles := []
    pairs := fun _ => []
    sendOk := fun _ _ => true }

/-- Round environment for C2: one fresh candidate in the Mid band whose
sends always fail. -/
def envC2 : Env :=
  { now := 300000
    candidates := [{ tokenAddress := "A", fullyDilutedValuation := Option.some 20000,
                     createdAt := Option.some 0 }]
    details := fun a =>
      if a = "A" then
        Option.some { marketCap := Option.some 20000, pairCreatedAt := Option.some (Option.some 0) }
      else Option.none
    profiles := []
    pairs := fun _ => []
    sendOk := fun _ _ => false }

/-- Round environment for C3: the candidate is young with the cap fallen into
the Mid band, and it also appears in the secondary-feed profiles. -/
def envC3 : Env :=
  { now := 600000
    candidates := [{ tokenAddress := "A", fullyDilutedValuation := Option.some 50000,
                     createdAt := Option.some 300000 }]
    details := fun a =>
      if a = "A" then
        Option.some { marketCap := Option.some 50000,
                      pairCreatedAt := Option.some (Option.some 300000) }
      else Option.none
    profiles := ["A"]
    pairs := fun a =>
      if a = "A" then
        [{ dexId := "raydium", buys5m := Option.some 10, volume5m := Option.some 1000,
           fdv := Option.some 50000, pairCreatedAt := Option.some 300000 }]
      else []
    sendOk := fun _ _ => true }

/-- Environment for C4 (only `now` and `sendOk` matter to a single
notification block). -/
def envC4 : Env :=
  { now := 0, candidates := [], details := fun _ => Option.none, profiles := []
    pairs := fun _ => [], sendOk := fun _ _ => true }

/-- Round environment for C5: the first candidate is notified High
successfully, then the second candidate's Mid send throws. -/
def envC5 : Env :=
  { now := 300000
    candidates :=
      [{ tokenAddress := "A", fullyDilutedValuation := Option.some 100000,
         createdAt := Option.some 0 },
       { tokenAddress := "B", fullyDilutedValuation := Option.some 20000,
         createdAt := Option.some 0 }]
    details := fun a =>
      if a = "A" then
        Option.some { marketCap := Option.some 100000, pairCreatedAt := Option.some (Option.some 0) }
      else if a = "B" then
        Option.some { marketCap := Option.some 20000, pairCreatedAt := Option.some (Option.some 0) }
      else Option.none
    profiles := []
    pairs := fun _ => []
    sendOk := fun c a => !(decide (c = Channel.mid) && decide (a = "B")) }

/-- Round environment for C7's counterexample: the only send of the round
throws, so the round aborts with zero notifications. -/
def envC7 : Env :=
  { now := 300000
    candidates := [{ tokenAddress := "C", fullyDilutedValuation := Option.some 20000,
                     createdAt := Option.some 0 }]
    details := fun a =>
      if a = "C" then
        Option.some { marketCap := Option.some 20000, pairCreatedAt := Option.some (Option.some 0) }
      else Option.none
    profiles := []
    pairs := fun _ => []
    sendOk := fun _ _ => false }

/-- Round environment for C7's witness: two Mid-band candidates, all sends
succeed, so the completed round counts two notifications. -/
def envC7W : Env :=
  { now := 300000
    candidates :=
      [{ tokenAddress := "A", fullyDilutedValuation := Option.some 20000,
         createdAt := Option.some 0 },
       { tokenAddress := "B", fullyDilutedValuation := Option.some 21000,
         createdAt := Option.some 0 }]
    details := fun a =>
      if a = "A" then
        Option.some { marketCap := Option.some 20000, pairCreatedAt := Option.some (Option.some 0) }
      else if a = "B" then
        Option.some { marketCap := Option.some 21000, pairCreatedAt := Option.some (Option.some 0) }
      else Option.none
    profiles := []
    pairs := fun _ => []
    sendOk := fun _ _ => true }

/-- Round environment for C8: the snapshot's `pairCreatedAt` is present but
unparsable while the candidate's own `createdAt` is fresh and valid. -/
def envC8 : Env :=
  { now := 300000
    candidates := [{ tokenAddress := "A", fullyDilutedValuation := Option.some 20000,
                     createdAt := Option.some 0 }]
    details := fun a =>
      if a = "A" then
        Option.some { marketCap := Option.some 20000, pairCreatedAt := Option.some Option.none }
      else Option.none
    profiles := []
    pairs := fun _ => []
    sendOk := fun _ _ => true }

/-- Round environment for C10's witness: one profile that is already in the
Mid ledger, with a pair that would otherwise qualify. -/
def envC10 : Env :=
  { now := 300000
    candidates := []
    details := fun _ => Option.none
    profiles := ["B"]
    pairs := fun a =>
      if a = "B" then
        [{ dexId := "raydium", buys5m := Option.some 10, volume5m := Option.some 1000,
           fdv := Option.some 50000, pairCreatedAt := Option.some 0 }]
      else []
    sendOk := fun _ _ => true }

/-! ## Helper lemmas -/

theorem lookupEntry_lruSet (l : Ledger) (b a : String) (t : ℚ) :
    lookupEntry (lruSet l b t) a = if b = a then Option.some t else lookupEntry l a := rfl

theorem lruHas_eq_true (l : Ledger) (ttl now : ℚ) (a : String) (t : ℚ)
    (hl : lookupEntry l a = Option.some t) (hlive : now - t < ttl) :
    lruHas l ttl now a = true := by
  simp [lruHas, hl, le_of_lt hlive]

theorem lruHas_congr (l1 l2 : Ledger) (ttl now : ℚ) (a : String)
    (h : lookupEntry l1 a = lookupEntry l2 a) :
    lruHas l1 ttl now a = lruHas l2 ttl now a := by
  unfold lruHas
  rw [h]

theorem countAttempts_append (l1 l2 : List Attempt) (p : Attempt → Bool) :
    countAttempts (l1 ++ l2) p = countAttempts l1 p + countAttempts l2 p := by
  simp [countAttempts, List.filter_append]

theorem countAttempts_singleton (x : Attempt) (p : Attempt → Bool) :
    countAttempts [x] p = if p x then 1 else 0 := by
  by_cases h : p x <;> simp [countAttempts, List.filter, h]

/-- Invariant propagation along a checker run: `P` holds at each intermediate
state, `Q` at the end state whether the run returned or threw. -/
theorem runSteps_inv_PQ {α : Type} (f : α → PState → Except PState PState)
    (P Q : PState → Prop)
    (hPQ : ∀ s, P s → Q s)
    (hok : ∀ x s s1, P s → f x s = Except.ok s1 → P s1)
    (herr : ∀ x s e, P s → f x s = Except.error e → Q e) :
    ∀ (l : List α) (s : PState), P s → Q (outState (runSteps f l s)) := by
  intro l
  induction l with
  | nil =>
    intro s hs
    exact hPQ s hs
  | cons x xs ih =>
    intro s hs
    cases hfx : f x s with
    | error e =>
      simp only [runSteps, hfx, outState]
      exact herr x s e hs hfx
    | ok s1 =>
      simp only [runSteps, hfx]
      exact ih s1 (hok x s s1 hs hfx)

/-- Simple invariant propagation: a predicate preserved by every step's end
state is preserved by the whole run. -/
theorem runSteps_out_inv {α : Type} (f : α → PState → Except PState PState)
    (P : PState → Prop)
    (hstep : ∀ x s, P s → P (outState (f x s))) :
    ∀ (l : List α) (s : PState), P s → P (outState (runSteps f l s)) := by
  refine runSteps_inv_PQ f P P (fun _ h => h) ?_ ?_
  · intro x s s1 hs hfx
    have h := hstep x s hs
    rw [hfx] at h
    exact h
  · intro x s e hs hfx
    have h := hstep x s hs
    rw [hfx] at h
    exact h

/-- Full case analysis of one notification block. -/
theorem tierPhase_char (env : Env) (b : String) (c : Channel) (cond : Bool) (s : PState) :
    tierPhase env b c cond s = Except.ok s ∨
    (lruHas (ledgerOf s c) (ttlOf c) env.now b = false ∧ cond = true ∧
      ((env.sendOk c b = true ∧ tierPhase env b c cond s =
          Except.ok (recordIn
            { s with attempts := s.attempts ++ [{ addr := b, channel := c, ok := true }] }
            c b env.now)) ∨
       (env.sendOk c b = false ∧ tierPhase env b c cond s =
          Except.error
            { s with attempts := s.attempts ++ [{ addr := b, channel := c, ok := false }] }))) := by
  by_cases hg : (cond && !(lruHas (ledgerOf s c) (ttlOf c) env.now b)) = true
  · have hg' := hg
    simp only [Bool.and_eq_true, Bool.not_eq_true'] at hg'
    obtain ⟨hc, hh⟩ := hg'
    right
    refine ⟨hh, hc, ?_⟩
    by_cases hs : env.sendOk c b = true
    · left
      exact ⟨hs, by simp [tierPhase, hg, hs]⟩
    · right
      have hs' : env.sendOk c b = false := by
        cases hsv : env.sendOk c b
        · rfl
        · exact absurd hsv hs
      exact ⟨hs', by simp [tierPhase, hg, hs']⟩
  · left
    simp [tierPhase, hg]

/-- A block whose channel ledger already has a live entry for the address
does nothing. -/
theorem tierPhase_of_has (env : Env) (b : String) (c : Channel) (cond : Bool) (s : PState)
    (hh : lruHas (ledgerOf s c) (ttlOf c) env.now b = true) :
    tierPhase env b c cond s = Except.ok s := by
  simp [tierPhase, hh]

/-- A High block never touches the Mid ledger. -/
theorem tierPhase_high_mid_frame (env : Env) (b : String) (cond : Bool) (s : PState) :
    (outState (tierPhase env b Channel.high cond s)).mid = s.mid := by
  rcases tierPhase_char env b Channel.high cond s with h | ⟨_, _, ⟨_, h⟩ | ⟨_, h⟩⟩ <;>
    simp [h, outState, recordIn]

/-- A Mid block never touches the High ledger. -/
theorem tierPhase_mid_high_frame (env : Env) (b : String) (cond : Bool) (s : PState) :
    (outState (tierPhase env b Channel.mid cond s)).high = s.high := by
  rcases tierPhase_char env b Channel.mid cond s with h | ⟨_, _, ⟨_, h⟩ | ⟨_, h⟩⟩ <;>
    simp [h, outState, recordIn]

/-- A live Mid entry survives any notification block with its timestamp. -/
theorem tierPhase_mid_lookup_live (env : Env) (b : String) (c : Channel) (cond : Bool)
    (s : PState) (a : String) (t : ℚ)
    (hl : lookupEntry s.mid a = Option.some t) (hlive : env.now - t < ttlMid) :
    lookupEntry (outState (tierPhase env b c cond s)).mid a = Option.some t := by
  cases c with
  | high => rw [tierPhase_high_mid_frame]; exact hl
  | mid =>
    rcases tierPhase_char env b Channel.mid cond s with h | ⟨hh, _, ⟨_, h⟩ | ⟨_, h⟩⟩
    · simp [h, outState, hl]
    · by_cases hba : b = a
      · subst hba
        rw [lruHas_eq_true (ledgerOf s Channel.mid) (ttlOf Channel.mid) env.now b t hl hlive] at hh
        exact absurd hh (by simp)
      · simp [h, outState, recordIn, lruSet, lookupEntry, hba, hl]
    · simp [h, outState, hl]

/-- A live High entry survives any notification block with its timestamp. -/
theorem tierPhase_high_lookup_live (env : Env) (b : String) (c : Channel) (cond : Bool)
    (s : PState) (a : String) (t : ℚ)
    (hl : lookupEntry s.high a = Option.some t) (hlive : env.now - t < ttlHigh) :
    lookupEntry (outState (tierPhase env b c cond s)).high a = Option.some t := by
  cases c with
  | mid => rw [tierPhase_mid_high_frame]; exact hl
  | high =>
    rcases tierPhase_char env b Channel.high cond s with h | ⟨hh, _, ⟨_, h⟩ | ⟨_, h⟩⟩
    · simp [h, outState, hl]
    · by_cases hba : b = a
      · subst hba
        rw [lruHas_eq_true (ledgerOf s Channel.high) (ttlOf Channel.high) env.now b t hl hlive] at hh
        exact absurd hh (by simp)
      · simp [h, outState, recordIn, lruSet, lookupEntry, hba, hl]
    · simp [h, outState, hl]

theorem recordIn_attempts (s : PState) (c : Channel) (a : String) (t : ℚ) :
    (recordIn s c a t).attempts = s.attempts := by
  cases c <;> rfl

/-- The attempts log of a notification block grows by nothing or by the one
attempt it makes. -/
theorem tierPhase_attempts_char (env : Env) (b : String) (c : Channel) (cond : Bool) (s : PState) :
    (outState (tierPhase env b c cond s)).attempts = s.attempts ∨
    ∃ del : Bool, (outState (tierPhase env b c cond s)).attempts =
      s.attempts ++ [{ addr := b, channel := c, ok := del }] := by
  rcases tierPhase_char env b c cond s with h | ⟨_, _, ⟨_, h⟩ | ⟨_, h⟩⟩
  · left
    simp [h, outState]
  · right
    refine ⟨true, ?_⟩
    simp [h, outState, recordIn_attempts]
  · right
    refine ⟨false, ?_⟩
    simp [h, outState]

theorem countAttempts_snoc (l : List Attempt) (x : Attempt) (p : Attempt → Bool) :
    countAttempts (l ++ [x]) p = countAttempts l p + (if p x then 1 else 0) := by
  rw [countAttempts_append, countAttempts_singleton]

theorem isForPair_eval (a : String) (c' : Channel) (b : String) (c : Channel) (del : Bool) :
    isForPair a c' { addr := b, channel := c, ok := del } =
      (decide (b = a) && decide (c = c')) := by
  simp [isForPair]

theorem isForAddr_eval (a b : String) (c : Channel) (del : Bool) :
    isForAddr a { addr := b, channel := c, ok := del } = decide (b = a) := by
  simp [isForAddr]

/-- A step property preserved by every notification block is preserved by the
whole per-token task of `checkPumpTokens`. -/
theorem pumpStep_out_inv (env : Env) (P : PState → Prop)
    (h : ∀ b c cond s, P s → P (outState (tierPhase env b c cond s)))
    (tok : Candidate) (s : PState) (hs : P s) :
    P (outState (pumpStep env tok s)) := by
  by_cases hf : (jltB tok.fullyDilutedValuation 16900 ||
      jgtB (getTokenAgeMinutes tok.createdAt env.now) 20) = true
  · simp only [pumpStep, hf, if_true, outState]
    exact hs
  · cases hdet : env.details tok.tokenAddress with
    | none =>
      simp only [pumpStep, hf, if_false, Bool.false_eq_true, hdet, outState]
      exact hs
    | some d =>
      simp only [pumpStep, hf, if_false, Bool.false_eq_true, hdet]
      cases hmid : tierPhase env tok.tokenAddress Channel.mid
          (shouldSendMid (d.marketCap.getD 0)
            (getTokenAgeMinutes (codeAgeSource d.pairCreatedAt tok.createdAt) env.now)) s with
      | error e =>
        have h1 := h tok.tokenAddress Channel.mid
          (shouldSendMid (d.marketCap.getD 0)
            (getTokenAgeMinutes (codeAgeSource d.pairCreatedAt tok.createdAt) env.now)) s hs
        rw [hmid] at h1
        simpa [outState] using h1
      | ok s1 =>
        have h1 := h tok.tokenAddress Channel.mid
          (shouldSendMid (d.marketCap.getD 0)
            (getTokenAgeMinutes (codeAgeSource d.pairCreatedAt tok.createdAt) env.now)) s hs
        rw [hmid] at h1
        simp only [outState] at h1
        exact h tok.tokenAddress Channel.high
          (shouldSendHigh (d.marketCap.getD 0)
            (getTokenAgeMinutes (codeAgeSource d.pairCreatedAt tok.createdAt) env.now)) s1 h1

/-- Either the per-token task skips, or it is precisely the Mid block bound
into the High block for that token's address. -/
theorem pumpStep_cases (env : Env) (tok : Candidate) (s : PState) :
    pumpStep env tok s = Except.ok s ∨
    ∃ cm ch : Bool,
      pumpStep env tok s =
        match tierPhase env tok.tokenAddress Channel.mid cm s with
        | Except.error e => Except.error e
        | Except.ok s1 => tierPhase env tok.tokenAddress Channel.high ch s1 := by
  by_cases hf : (jltB tok.fullyDilutedValuation 16900 ||
      jgtB (getTokenAgeMinutes tok.createdAt env.now) 20) = true
  · left
    simp [pumpStep, hf]
  · cases hdet : env.details tok.tokenAddress with
    | none =>
      left
      simp [pumpStep, hf, hdet]
    | some d =>
      right
      refine ⟨shouldSendMid (d.marketCap.getD 0)
          (getTokenAgeMinutes (codeAgeSource d.pairCreatedAt tok.createdAt) env.now),
        shouldSendHigh (d.marketCap.getD 0)
          (getTokenAgeMinutes (codeAgeSource d.pairCreatedAt tok.createdAt) env.now), ?_⟩
      simp only [pumpStep, hf, if_false, Bool.false_eq_true, hdet]

/-- Full case analysis of the inner pair loop of `checkOtherDexTokens`: it
either finds nothing, or makes exactly one Mid attempt for the profile's
address, recording it on success and throwing on failure. -/
theorem otherPairsLoop_char (env : Env) (a : String) :
    ∀ (ps : List DexPair) (s : PState),
      otherPairsLoop env a ps s = Except.ok s ∨
      (env.sendOk Channel.mid a = true ∧ otherPairsLoop env a ps s =
          Except.ok
            { s with
              mid := lruSet s.mid a env.now
              sent := s.sent + 1
              attempts := s.attempts ++ [{ addr := a, channel := Channel.mid, ok := true }] }) ∨
      (env.sendOk Channel.mid a = false ∧ otherPairsLoop env a ps s =
          Except.error
            { s with attempts := s.attempts ++ [{ addr := a, channel := Channel.mid, ok := false }] }) := by
  intro ps
  induction ps with
  | nil =>
    intro s
    left
    rfl
  | cons p rest ih =>
    intro s
    by_cases hd : PUMP_DEXES.contains p.dexId = true
    · have hstep : otherPairsLoop env a (p :: rest) s = otherPairsLoop env a rest s := by
        rw [otherPairsLoop, if_pos hd]
      rw [hstep]
      exact ih s
    · by_cases hq : (decide (16900 ≤ p.fdv.getD 0) && decide (5 ≤ p.buys5m.getD 0) &&
          decide (500 ≤ p.volume5m.getD 0) &&
          jleB (getTokenAgeMinutes p.pairCreatedAt env.now) 20) = true
      · by_cases hsend : env.sendOk Channel.mid a = true
        · right
          left
          refine ⟨hsend, ?_⟩
          rw [otherPairsLoop, if_neg hd]
          dsimp only
          rw [if_pos hq, if_pos hsend]
        · right
          right
          have hsend' : env.sendOk Channel.mid a = false := by
            cases hsv : env.sendOk Channel.mid a
            · rfl
            · exact absurd hsv hsend
          refine ⟨hsend', ?_⟩
          rw [otherPairsLoop, if_neg hd]
          dsimp only
          rw [if_pos hq, if_neg hsend]
      · have hstep : otherPairsLoop env a (p :: rest) s = otherPairsLoop env a rest s := by
          rw [otherPairsLoop, if_neg hd]
          dsimp only
          rw [if_neg hq]
        rw [hstep]
        exact ih s

theorem otherStep_of_tracked (env : Env) (p : String) (s : PState)
    (h : (lruHas s.mid ttlMid env.now p || lruHas s.high ttlHigh env.now p) = true) :
    otherStep env p s = Except.ok s := by
  simp [otherStep, h]

theorem otherStep_of_untracked (env : Env) (p : String) (s : PState)
    (h : (lruHas s.mid ttlMid env.now p || lruHas s.high ttlHigh env.now p) = false) :
    otherStep env p s = otherPairsLoop env p (env.pairs p) s := by
  simp [otherStep, h]

/-! ## C6: classification boundaries -/

/-- C6: tier boundaries are lower-inclusive and upper-exclusive: cap exactly
at the mid floor with age exactly at the mid age ceiling is `Mid`; one unit
below the floor is `None`; one minute over the age ceiling is `None`; cap at
or above the high floor within the high age ceiling is `High`. -/
theorem C6_boundaries :
    classify 16900 (Option.some 20) = Tier.mid ∧
    classify 16899 (Option.some 20) = Tier.none ∧
    classify 16900 (Option.some 21) = Tier.none ∧
    ∀ m a : ℚ, 80000 ≤ m → a ≤ 120 → classify m (Option.some a) = Tier.high := by
  refine ⟨by rfl, by rfl, by rfl, ?_⟩
  intro m a hm ha
  have hmf : decide (m < 80000) = false := decide_eq_false (not_lt.mpr hm)
  have h1 : shouldSendMid m (Option.some a) = false := by
    simp [shouldSendMid, hmf]
  have h2 : shouldSendHigh m (Option.some a) = true := by
    simp [shouldSendHigh, jleB, hm, ha]
  simp [classify, h1, h2]

/-- C6 witness: a concrete instance of the universally quantified part. -/
theorem C6_boundaries_witness : classify 90000 (Option.some 100) = Tier.high :=
  C6_boundaries.2.2.2 90000 100 (by decide) (by decide)

/-! ## C9: credential selection is constant on a 6-hour slice -/

/-- C9: two calls within one process run (same shuffled order, same day
start) whose times land in the same 6-hour block return the same key. -/
theorem C9_same_slice_same_key (order : List String) (s t1 t2 : Nat)
    (hsame : (t1 - s) / 21600000 = (t2 - s) / 21600000) :
    getCurrentMoralisKey order s t1 = getCurrentMoralisKey order s t2 := by
  unfold getCurrentMoralisKey hoursPerBlock
  rw [Nat.div_div_eq_div_mul, Nat.div_div_eq_div_mul]
  have h36 : (3600000 : Nat) * 6 = 21600000 := by norm_num
  rw [h36, hsame]

/-- C9 witness: the first and last millisecond of the first slice of a day
yield the same key. -/
theorem C9_same_slice_same_key_witness :
    getCurrentMoralisKey ["k1", "k2"] 0 0 = getCurrentMoralisKey ["k1", "k2"] 0 21599999 :=
  C9_same_slice_same_key ["k1", "k2"] 0 0 21599999 (by decide)

/-! ## C4: re-recording before expiry is first-write-wins -/

/-- C4: the ledger write of a notification block is guarded by `has`, so a
second notification block for the same (token, tier) run at `t2a` while the
first entry (stored at `t1`) is still live — its age at most the TTL, the
instant of age exactly the TTL included — leaves the stored timestamp at
`t1`, whatever its condition; run at `t2b` strictly past the TTL the entry
is expired and, with the condition holding, it is re-created with timestamp
`t2b`. -/
theorem C4_record_idempotent (env : Env) (a : String) (s : PState)
    (t1 t2a t2b : ℚ) (cond2 : Bool)
    (h0 : lruHas s.mid ttlMid t1 a = false)
    (hsend : env.sendOk Channel.mid a = true)
    (hliveA : t2a - t1 ≤ ttlMid)
    (hexpB : ttlMid < t2b - t1) :
    ∀ s1, tierPhase { env with now := t1 } a Channel.mid true s = Except.ok s1 →
      lookupEntry s1.mid a = Option.some t1 ∧
      lookupEntry (outState (tierPhase { env with now := t2a } a Channel.mid cond2 s1)).mid a =
        Option.some t1 ∧
      lookupEntry (outState (tierPhase { env with now := t2b } a Channel.mid true s1)).mid a =
        Option.some t2b := by
  intro s1 hs1
  have he : tierPhase { env with now := t1 } a Channel.mid true s =
      Except.ok (recordIn
        { s with attempts := s.attempts ++ [{ addr := a, channel := Channel.mid, ok := true }] }
        Channel.mid a t1) := by
    simp [tierPhase, ledgerOf, ttlOf, h0, hsend]
  rw [he] at hs1
  have hs1' : s1 = recordIn
      { s with attempts := s.attempts ++ [{ addr := a, channel := Channel.mid, ok := true }] }
      Channel.mid a t1 := by
    cases hs1
    rfl
  subst hs1'
  have hlook : lookupEntry (recordIn
      { s with attempts := s.attempts ++ [{ addr := a, channel := Channel.mid, ok := true }] }
      Channel.mid a t1).mid a = Option.some t1 := by
    simp [recordIn, lruSet, lookupEntry]
  refine ⟨hlook, ?_, ?_⟩
  · have hh : lruHas (recordIn
        { s with attempts := s.attempts ++ [{ addr := a, channel := Channel.mid, ok := true }] }
        Channel.mid a t1).mid ttlMid t2a a = true := by
      simp [lruHas, hlook, hliveA]
    rw [tierPhase_of_has { env with now := t2a } a Channel.mid cond2 _ (by simpa [ledgerOf, ttlOf] using hh)]
    exact hlook
  · have hh : lruHas (recordIn
        { s with attempts := s.attempts ++ [{ addr := a, channel := Channel.mid, ok := true }] }
        Channel.mid a t1).mid ttlMid t2b a = false := by
      simp [lruHas, hlook, not_le.mpr hexpB]
    have he2 : tierPhase { env with now := t2b } a Channel.mid true (recordIn
        { s with attempts := s.attempts ++ [{ addr := a, channel := Channel.mid, ok := true }] }
        Channel.mid a t1) = Except.ok (recordIn
          { (recordIn
              { s with attempts := s.attempts ++ [{ addr := a, channel := Channel.mid, ok := true }] }
              Channel.mid a t1) with
            attempts := (recordIn
              { s with attempts := s.attempts ++ [{ addr := a, channel := Channel.mid, ok := true }] }
              Channel.mid a t1).attempts ++ [{ addr := a, channel := Channel.mid, ok := true }] }
          Channel.mid a t2b) := by
      simp [tierPhase, ledgerOf, ttlOf, hh, hsend]
    rw [he2]
    simp [outState, recordIn, lruSet, lookupEntry]

/-- C4 witness: record at 0; re-record at 1200000, age exactly the TTL, so
the entry is still live and the timestamp stays 0; re-record at 1200001,
one ms past the TTL, so the entry is expired and re-created at 1200001. -/
theorem C4_record_idempotent_witness :
    lookupEntry (outState (tierPhase { envC4 with now := (1200000 : ℚ) } "A" Channel.mid true
      { mid := [("A", 0)], high := [], sent := 1,
        attempts := [{ addr := "A", channel := Channel.mid, ok := true }] })).mid "A" =
      Option.some 0 ∧
    lookupEntry (outState (tierPhase { envC4 with now := (1200001 : ℚ) } "A" Channel.mid true
      { mid := [("A", 0)], high := [], sent := 1,
        attempts := [{ addr := "A", channel := Channel.mid, ok := true }] })).mid "A" =
      Option.some 1200001 := by
  have h := C4_record_idempotent envC4 "A" { mid := [], high := [], sent := 0, attempts := [] }
    0 1200000 1200001 true (by rfl) (by rfl) (by decide) (by decide)
    { mid := [("A", 0)], high := [], sent := 1,
      attempts := [{ addr := "A", channel := Channel.mid, ok := true }] } (by rfl)
  exact ⟨h.2.1, h.2.2⟩

/-! ## C8: age source fallback -/

/-- C8 counterexample: with a present-but-unparsable snapshot timestamp and a
fresh, valid candidate timestamp, the claimed fallback would classify the
token `Mid`, but the code uses the unparsable value (NaN age) and the round
sends nothing. -/
theorem C8_counterexample :
    checkPumpTokens envC8 [] [] =
      Except.ok { mid := [], high := [], sent := 0, attempts := [] } ∧
    classify 20000
      (getTokenAgeMinutes (specAgeSource (Option.some Option.none) (Option.some 0)) 300000) =
      Tier.mid ∧
    classify 20000
      (getTokenAgeMinutes (codeAgeSource (Option.some Option.none) (Option.some 0)) 300000) =
      Tier.none := by
  exact ⟨by rfl, by rfl, by rfl⟩

/-- C8 as amended: the fallback to the candidate's `createdAt` fires only
when the snapshot's `pairCreatedAt` is absent; a present value is used even
if unparsable, in which case the age is NaN, every age bound fails and the
token classifies `None` — processing is never aborted, merely skipped. -/
theorem C8_age_source (cd : JsDate) (d : JsDate) (m now : ℚ) :
    codeAgeSource Option.none cd = cd ∧
    codeAgeSource (Option.some d) cd = d ∧
    getTokenAgeMinutes Option.none now = Option.none ∧
    classify m Option.none = Tier.none := by
  refine ⟨rfl, rfl, rfl, ?_⟩
  simp [classify, shouldSendMid, shouldSendHigh, jleB]

/-! ## Counterexamples for C1, C2, C3, C5, C7 -/

/-- C1 counterexample: token "A" has a live Mid entry (stored at 0, queried
at 300000 < TTL); the round notifies it High and records it in the High
ledger, yet the Mid entry is still there and `hasNotified(A, Mid)` is still
true immediately afterwards — nothing was removed. -/
theorem C1_counterexample :
    checkPumpTokens envC1 [("A", (0 : ℚ))] [] =
      Except.ok { mid := [("A", 0)], high := [("A", 300000)], sent := 1,
                  attempts := [{ addr := "A", channel := Channel.high, ok := true }] } ∧
    hasNotified [("A", (0 : ℚ))] [("A", (300000 : ℚ))] "A" Channel.mid 300000 = true ∧
    hasNotified [("A", (0 : ℚ))] [("A", (300000 : ℚ))] "A" Channel.high 300000 = true := by
  exact ⟨by rfl, by rfl, by rfl⟩

/-- C2 counterexample: the only delivery of the round fails; the attempt log
shows exactly one attempt (no retry), and the round throws instead of
continuing (the ledgers are untouched). -/
theorem C2_counterexample :
    checkPumpTokens envC2 [] [] =
      Except.error { mid := [], high := [], sent := 0,
                     attempts := [{ addr := "A", channel := Channel.mid, ok := false }] } := by
  rfl

/-- C3 counterexample: token "A" has a live High entry (stored at 0, queried
at 600000 < TTL), its cap has fallen to 50000 within the mid age window, and
the round sends a Mid notification for it — the Mid block never consults the
High ledger. -/
theorem C3_counterexample :
    lruHas [("A", (0 : ℚ))] ttlHigh 600000 "A" = true ∧
    checkPumpTokens envC3 [] [("A", (0 : ℚ))] =
      Except.ok { mid := [("A", 600000)], high := [("A", 0)], sent := 1,
                  attempts := [{ addr := "A", channel := Channel.mid, ok := true }] } := by
  exact ⟨by rfl, by rfl⟩

/-- C5 counterexample: the round notifies "A" High (a ledger write), then
"B"'s Mid send throws. The exception is caught, but the High write persists
(the ledger is not the pre-round one) and the next round is scheduled at the
previous `pollInterval` of 15000 ms, not the default 30000 ms. -/
theorem C5_counterexample :
    mainLoopStep envC5 { mid := [], high := [], pollInterval := 15000 } =
      { mid := [], high := [("A", 300000)], pollInterval := 15000 } ∧
    ([("A", (300000 : ℚ))] : Ledger) ≠ [] ∧
    (15000 : Nat) ≠ 30000 := by
  exact ⟨by rfl, by decide, by decide⟩

/-- C7 counterexample: zero tokens are notified in the round (its only send
throws), yet the next delay is the inherited 15000 ms, not the default
30000 ms: an aborted round skips the interval adaptation. -/
theorem C7_counterexample :
    roundResult envC7 { mid := [], high := [], pollInterval := 15000 } =
      Except.error { mid := [], high := [], sent := 0,
                     attempts := [{ addr := "C", channel := Channel.mid, ok := false }] } ∧
    (mainLoopStep envC7 { mid := [], high := [], pollInterval := 15000 }).pollInterval = 15000 ∧
    (15000 : Nat) ≠ 30000 := by
  exact ⟨by rfl, by rfl, by decide⟩

/-! ## C1 amended: no promotion — the Mid entry survives a High notification -/

/-- C1 as amended: `checkPumpTokens` never deletes a ledger entry; any live
Mid entry keeps its stored timestamp through the whole round, whatever is
notified, and `hasNotified(a, Mid)` is still true right after the round. -/
theorem C1_no_promote (env : Env) (mid high : Ledger) (a : String) (t : ℚ)
    (hl : lookupEntry mid a = Option.some t) (hlive : env.now - t < ttlMid) :
    lookupEntry (outState (checkPumpTokens env mid high)).mid a = Option.some t ∧
    hasNotified (outState (checkPumpTokens env mid high)).mid
      (outState (checkPumpTokens env mid high)).high a Channel.mid env.now = true := by
  have key : lookupEntry (outState (checkPumpTokens env mid high)).mid a = Option.some t := by
    unfold checkPumpTokens
    exact runSteps_out_inv (pumpStep env) (fun s => lookupEntry s.mid a = Option.some t)
      (fun tok s hs => pumpStep_out_inv env _
        (fun b c cond s2 hs2 => tierPhase_mid_lookup_live env b c cond s2 a t hs2 hlive)
        tok s hs)
      env.candidates { mid := mid, high := high, sent := 0, attempts := [] } hl
  refine ⟨key, ?_⟩
  simp only [hasNotified]
  exact lruHas_eq_true _ ttlMid env.now a t key hlive

/-- C1 witness: the C1 counterexample round, seen through the amended claim. -/
theorem C1_no_promote_witness :
    lookupEntry (outState (checkPumpTokens envC1 [("A", (0 : ℚ))] [])).mid "A" = Option.some 0 ∧
    hasNotified (outState (checkPumpTokens envC1 [("A", (0 : ℚ))] [])).mid
      (outState (checkPumpTokens envC1 [("A", (0 : ℚ))] [])).high "A" Channel.mid envC1.now =
      true :=
  C1_no_promote envC1 [("A", 0)] [] "A" 0 (by rfl) (by decide)

/-! ## C2 amended: no retry, failed delivery leaves the pair unrecorded -/

/-- One notification block under a failing Mid delivery oracle for `a`:
`a`'s Mid ledger entry stays absent, the Mid attempt count stays 0 on normal
return and reaches at most 1 on a throw. -/
theorem tierPhase_C2_inv (env : Env) (b : String) (c : Channel) (cond : Bool) (s : PState)
    (a : String) (hfail : env.sendOk Channel.mid a = false)
    (h1 : lookupEntry s.mid a = Option.none)
    (h2 : countAttempts s.attempts (isForPair a Channel.mid) = 0) :
    (∀ s1, tierPhase env b c cond s = Except.ok s1 →
      lookupEntry s1.mid a = Option.none ∧
      countAttempts s1.attempts (isForPair a Channel.mid) = 0) ∧
    (∀ e, tierPhase env b c cond s = Except.error e →
      lookupEntry e.mid a = Option.none ∧
      countAttempts e.attempts (isForPair a Channel.mid) ≤ 1) := by
  rcases tierPhase_char env b c cond s with hcase | ⟨hh, hc, ⟨hsend, hcase⟩ | ⟨hsend, hcase⟩⟩
  · constructor
    · intro s1 hs1
      rw [hcase] at hs1
      cases hs1
      exact ⟨h1, h2⟩
    · intro e he
      rw [hcase] at he
      cases he
  · constructor
    · intro s1 hs1
      rw [hcase] at hs1
      cases hs1
      constructor
      · cases c with
        | mid =>
          have hba : b ≠ a := by
            intro hba
            rw [hba, hfail] at hsend
            exact Bool.noConfusion hsend
          simp [recordIn, lruSet, lookupEntry, hba, h1]
        | high =>
          simp [recordIn, h1]
      · have hpred : isForPair a Channel.mid { addr := b, channel := c, ok := true } = false := by
          cases c with
          | high => simp [isForPair]
          | mid =>
            have hba : b ≠ a := by
              intro hba
              rw [hba, hfail] at hsend
              exact Bool.noConfusion hsend
            simp [isForPair, hba]
        simp [recordIn_attempts, countAttempts_snoc, hpred, h2]
    · intro e he
      rw [hcase] at he
      cases he
  · constructor
    · intro s1 hs1
      rw [hcase] at hs1
      cases hs1
    · intro e he
      rw [hcase] at he
      cases he
      refine ⟨h1, ?_⟩
      rw [show ({ s with
          attempts := s.attempts ++ [{ addr := b, channel := c, ok := false }] } : PState).attempts =
          s.attempts ++ [{ addr := b, channel := c, ok := false }] from rfl,
        countAttempts_snoc, h2]
      split <;> simp

/-- The per-token task under a failing Mid delivery oracle for `a`. -/
theorem pumpStep_C2_inv (env : Env) (tok : Candidate) (s : PState) (a : String)
    (hfail : env.sendOk Channel.mid a = false)
    (h1 : lookupEntry s.mid a = Option.none)
    (h2 : countAttempts s.attempts (isForPair a Channel.mid) = 0) :
    (∀ s1, pumpStep env tok s = Except.ok s1 →
      lookupEntry s1.mid a = Option.none ∧
      countAttempts s1.attempts (isForPair a Channel.mid) = 0) ∧
    (∀ e, pumpStep env tok s = Except.error e →
      lookupEntry e.mid a = Option.none ∧
      countAttempts e.attempts (isForPair a Channel.mid) ≤ 1) := by
  rcases pumpStep_cases env tok s with hcase | ⟨cm, ch, hcase⟩
  · constructor
    · intro s1 hs1
      rw [hcase] at hs1
      cases hs1
      exact ⟨h1, h2⟩
    · intro e he
      rw [hcase] at he
      cases he
  · cases hmid : tierPhase env tok.tokenAddress Channel.mid cm s with
    | error e0 =>
      have hres : pumpStep env tok s = Except.error e0 := by rw [hcase, hmid]
      constructor
      · intro s1 hs1
        rw [hres] at hs1
        cases hs1
      · intro e he
        rw [hres] at he
        cases he
        exact (tierPhase_C2_inv env tok.tokenAddress Channel.mid cm s a hfail h1 h2).2 e0 hmid
    | ok s1 =>
      have hP1 := (tierPhase_C2_inv env tok.tokenAddress Channel.mid cm s a hfail h1 h2).1 s1 hmid
      have hres : pumpStep env tok s = tierPhase env tok.tokenAddress Channel.high ch s1 := by
        rw [hcase, hmid]
      constructor
      · intro s2 hs2
        rw [hres] at hs2
        exact (tierPhase_C2_inv env tok.tokenAddress Channel.high ch s1 a hfail hP1.1 hP1.2).1 s2 hs2
      · intro e he
        rw [hres] at he
        exact (tierPhase_C2_inv env tok.tokenAddress Channel.high ch s1 a hfail hP1.1 hP1.2).2 e he

/-- C2 as amended: delivery is attempted at most once per (token, tier) in a
round — there is no retry — and when every Mid delivery for the token fails,
the Mid ledger is never updated for it, so the token is still not "notified"
and remains eligible next round (the throw itself aborts the rest of the
round and is caught at the `mainLoop` boundary). -/
theorem C2_no_retry (env : Env) (mid high : Ledger) (a : String)
    (hfail : env.sendOk Channel.mid a = false)
    (hinit : lookupEntry mid a = Option.none) :
    lookupEntry (outState (checkPumpTokens env mid high)).mid a = Option.none ∧
    countAttempts (outState (checkPumpTokens env mid high)).attempts (isForPair a Channel.mid) ≤ 1 ∧
    hasNotified (outState (checkPumpTokens env mid high)).mid
      (outState (checkPumpTokens env mid high)).high a Channel.mid env.now = false := by
  have key : lookupEntry (outState (checkPumpTokens env mid high)).mid a = Option.none ∧
      countAttempts (outState (checkPumpTokens env mid high)).attempts (isForPair a Channel.mid) ≤ 1 := by
    unfold checkPumpTokens
    refine runSteps_inv_PQ (pumpStep env)
      (fun s => lookupEntry s.mid a = Option.none ∧
        countAttempts s.attempts (isForPair a Channel.mid) = 0)
      (fun s => lookupEntry s.mid a = Option.none ∧
        countAttempts s.attempts (isForPair a Channel.mid) ≤ 1)
      ?_ ?_ ?_ env.candidates
      { mid := mid, high := high, sent := 0, attempts := [] }
      ⟨hinit, by simp [countAttempts]⟩
    · intro s hs
      refine ⟨hs.1, ?_⟩
      rw [hs.2]
      exact Nat.zero_le 1
    · intro x s s1 hs hok
      exact (pumpStep_C2_inv env x s a hfail hs.1 hs.2).1 s1 hok
    · intro x s e hs herr
      exact (pumpStep_C2_inv env x s a hfail hs.1 hs.2).2 e herr
  refine ⟨key.1, key.2, ?_⟩
  simp only [hasNotified, lruHas, key.1]

/-- C2 witness: the C2 counterexample round, seen through the amended claim. -/
theorem C2_no_retry_witness :
    lookupEntry (outState (checkPumpTokens envC2 [] [])).mid "A" = Option.none ∧
    countAttempts (outState (checkPumpTokens envC2 [] [])).attempts
      (isForPair "A" Channel.mid) ≤ 1 := by
  have h := C2_no_retry envC2 [] [] "A" (by rfl) (by rfl)
  exact ⟨h.1, h.2.1⟩

/-! ## C3 amended: a live High entry blocks High re-notification and the
secondary path, but not the primary path's Mid block -/

/-- One notification block while `a` has a live High entry: the entry keeps
its timestamp and no High attempt for `a` is made. -/
theorem tierPhase_C3_inv (env : Env) (b : String) (c : Channel) (cond : Bool) (s : PState)
    (a : String) (t : ℚ) (hlive : env.now - t < ttlHigh)
    (h : lookupEntry s.high a = Option.some t ∧
      countAttempts s.attempts (isForPair a Channel.high) = 0) :
    lookupEntry (outState (tierPhase env b c cond s)).high a = Option.some t ∧
    countAttempts (outState (tierPhase env b c cond s)).attempts (isForPair a Channel.high) = 0 := by
  refine ⟨tierPhase_high_lookup_live env b c cond s a t h.1 hlive, ?_⟩
  rcases tierPhase_char env b c cond s with hcase | ⟨hh, hc, ⟨hsend, hcase⟩ | ⟨hsend, hcase⟩⟩
  · simp [hcase, outState, h.2]
  · have hpred : isForPair a Channel.high { addr := b, channel := c, ok := true } = false := by
      cases c with
      | mid => simp [isForPair]
      | high =>
        have hba : b ≠ a := by
          intro hba
          rw [show ledgerOf s Channel.high = s.high from rfl,
            show ttlOf Channel.high = ttlHigh from rfl, hba,
            lruHas_eq_true s.high ttlHigh env.now a t h.1 hlive] at hh
          exact Bool.noConfusion hh
        simp [isForPair, hba]
    simp [hcase, outState, recordIn_attempts, countAttempts_snoc, hpred, h.2]
  · have hpred : isForPair a Channel.high { addr := b, channel := c, ok := false } = false := by
      cases c with
      | mid => simp [isForPair]
      | high =>
        have hba : b ≠ a := by
          intro hba
          rw [show ledgerOf s Channel.high = s.high from rfl,
            show ttlOf Channel.high = ttlHigh from rfl, hba,
            lruHas_eq_true s.high ttlHigh env.now a t h.1 hlive] at hh
          exact Bool.noConfusion hh
        simp [isForPair, hba]
    simp [hcase, outState, countAttempts_snoc, hpred, h.2]

/-- One profile body while `a` has a live High entry: `a` keeps its entry and
no attempt with address `a` is made. -/
theorem otherStep_C3_inv (env : Env) (p : String) (s : PState) (a : String) (t2 : ℚ)
    (hlive2 : env.now - t2 < ttlHigh)
    (h : lookupEntry s.high a = Option.some t2 ∧ countAttempts s.attempts (isForAddr a) = 0) :
    lookupEntry (outState (otherStep env p s)).high a = Option.some t2 ∧
    countAttempts (outState (otherStep env p s)).attempts (isForAddr a) = 0 := by
  by_cases hskip : (lruHas s.mid ttlMid env.now p || lruHas s.high ttlHigh env.now p) = true
  · rw [otherStep_of_tracked env p s hskip]
    exact h
  · have hpa : p ≠ a := by
      intro hpa
      rw [hpa, lruHas_eq_true s.high ttlHigh env.now a t2 h.1 hlive2] at hskip
      simp at hskip
    have hskip' : (lruHas s.mid ttlMid env.now p || lruHas s.high ttlHigh env.now p) = false := by
      cases hsv : (lruHas s.mid ttlMid env.now p || lruHas s.high ttlHigh env.now p)
      · rfl
      · exact absurd hsv hskip
    rw [otherStep_of_untracked env p s hskip']
    rcases otherPairsLoop_char env p (env.pairs p) s with hcase | ⟨_, hcase⟩ | ⟨_, hcase⟩
    · rw [hcase]
      exact h
    · rw [hcase]
      refine ⟨h.1, ?_⟩
      simp [outState, countAttempts_snoc, isForAddr, hpa, h.2]
    · rw [hcase]
      refine ⟨h.1, ?_⟩
      simp [outState, countAttempts_snoc, isForAddr, hpa, h.2]

/-- C3 as amended: while a token's High entry is live, `checkPumpTokens`
makes no further High attempt for it and `checkOtherDexTokens` makes no
attempt for it at all; the primary path's Mid block, however, does not
consult the High ledger (see the counterexample: a Mid notification can
still be sent when the cap falls back into the Mid band). -/
theorem C3_high_is_sticky (env : Env) (mid high : Ledger) (a : String) (t : ℚ)
    (hl : lookupEntry high a = Option.some t) (hlive : env.now - t < ttlHigh)
    (mid2 high2 : Ledger) (t2 : ℚ)
    (hl2 : lookupEntry high2 a = Option.some t2) (hlive2 : env.now - t2 < ttlHigh) :
    countAttempts (outState (checkPumpTokens env mid high)).attempts (isForPair a Channel.high) = 0 ∧
    countAttempts (outState (checkOtherDexTokens env mid2 high2)).attempts (isForAddr a) = 0 := by
  constructor
  · have key := runSteps_out_inv (pumpStep env)
      (fun s => lookupEntry s.high a = Option.some t ∧
        countAttempts s.attempts (isForPair a Channel.high) = 0)
      (fun tok s hs => pumpStep_out_inv env _
        (fun b c cond s2 hs2 => tierPhase_C3_inv env b c cond s2 a t hlive hs2) tok s hs)
      env.candidates { mid := mid, high := high, sent := 0, attempts := [] }
      ⟨hl, by simp [countAttempts]⟩
    exact key.2
  · have key := runSteps_out_inv (otherStep env)
      (fun s => lookupEntry s.high a = Option.some t2 ∧
        countAttempts s.attempts (isForAddr a) = 0)
      (fun p s hs => otherStep_C3_inv env p s a t2 hlive2 hs)
      env.profiles { mid := mid2, high := high2, sent := 0, attempts := [] }
      ⟨hl2, by simp [countAttempts]⟩
    exact key.2

/-- C3 witness: the C3 counterexample round — no High attempt from the
primary path and no attempt at all from the secondary path while the High
entry is live. -/
theorem C3_high_is_sticky_witness :
    countAttempts (outState (checkPumpTokens envC3 [] [("A", (0 : ℚ))])).attempts
      (isForPair "A" Channel.high) = 0 ∧
    countAttempts (outState (checkOtherDexTokens envC3 [("A", (600000 : ℚ))]
      [("A", (0 : ℚ))])).attempts (isForAddr "A") = 0 :=
  C3_high_is_sticky envC3 [] [("A", 0)] "A" 0 (by rfl) (by decide)
    [("A", 600000)] [("A", 0)] 0 (by rfl) (by decide)

/-! ## C5 amended: exception rounds keep partial writes and the old interval -/

/-- C5 as amended: an exception inside a round is caught at the round
boundary and the process schedules another round, but the round is not
rolled back: the ledgers keep every write made before the throw, and the
next delay is the previous `pollInterval`, not necessarily the default. -/
theorem C5_exception_effect (env : Env) (s : Sys) (e : PState)
    (h : roundResult env s = Except.error e) :
    mainLoopStep env s = { mid := e.mid, high := e.high, pollInterval := s.pollInterval } := by
  simp [mainLoopStep, h]

/-- C5 witness: the C5 counterexample environment from a 25000 ms interval —
the High write persists and the interval is carried over unchanged. -/
theorem C5_exception_effect_witness :
    mainLoopStep envC5 { mid := [], high := [], pollInterval := 25000 } =
      { mid := [], high := [("A", 300000)], pollInterval := 25000 } :=
  C5_exception_effect envC5 { mid := [], high := [], pollInterval := 25000 }
    { mid := [], high := [("A", 300000)], sent := 1,
      attempts := [{ addr := "A", channel := Channel.high, ok := true },
                   { addr := "B", channel := Channel.mid, ok := false }] } (by rfl)

/-! ## C7 amended: interval adaptation for rounds that complete -/

/-- C7 as amended: for a round in which both checkers return normally, the
next delay is 15000 ms when the round's combined sent count is at least 2
and 30000 ms otherwise (an aborted round instead keeps the previous delay,
see the counterexample). -/
theorem C7_interval_adaptation (env : Env) (s : Sys) (r1 r2 : PState)
    (h1 : checkPumpTokens env s.mid s.high = Except.ok r1)
    (h2 : checkOtherDexTokens env r1.mid r1.high = Except.ok r2) :
    (mainLoopStep env s).pollInterval = if 2 ≤ r1.sent + r2.sent then 15000 else 30000 := by
  simp [mainLoopStep, roundResult, h1, h2]

/-- C7 witness: two Mid notifications in one completed round shorten the next
delay to 15000 ms. -/
theorem C7_interval_adaptation_witness :
    (mainLoopStep envC7W { mid := [], high := [], pollInterval := 30000 }).pollInterval = 15000 := by
  have h := C7_interval_adaptation envC7W { mid := [], high := [], pollInterval := 30000 }
    { mid := [("B", 300000), ("A", 300000)], high := [], sent := 2,
      attempts := [{ addr := "A", channel := Channel.mid, ok := true },
                   { addr := "B", channel := Channel.mid, ok := true }] }
    { mid := [("B", 300000), ("A", 300000)], high := [], sent := 0, attempts := [] }
    (by rfl) (by rfl)
  simpa using h

/-! ## C10: the secondary path notifies Mid only and skips tracked tokens -/

/-- One profile body preserves the High ledger and adds only Mid attempts. -/
theorem otherStep_frame_inv (env : Env) (p : String) (s : PState) (high0 : Ledger)
    (h : s.high = high0 ∧ countAttempts s.attempts isNonMid = 0) :
    (outState (otherStep env p s)).high = high0 ∧
    countAttempts (outState (otherStep env p s)).attempts isNonMid = 0 := by
  by_cases hskip : (lruHas s.mid ttlMid env.now p || lruHas s.high ttlHigh env.now p) = true
  · rw [otherStep_of_tracked env p s hskip]
    exact h
  · have hskip' : (lruHas s.mid ttlMid env.now p || lruHas s.high ttlHigh env.now p) = false := by
      cases hsv : (lruHas s.mid ttlMid env.now p || lruHas s.high ttlHigh env.now p)
      · rfl
      · exact absurd hsv hskip
    rw [otherStep_of_untracked env p s hskip']
    rcases otherPairsLoop_char env p (env.pairs p) s with hcase | ⟨_, hcase⟩ | ⟨_, hcase⟩
    · rw [hcase]
      exact h
    · rw [hcase]
      refine ⟨h.1, ?_⟩
      have hpred : isNonMid { addr := p, channel := Channel.mid, ok := true } = false := by
        simp [isNonMid]
      simp [outState, countAttempts_snoc, hpred, h.2]
    · rw [hcase]
      refine ⟨h.1, ?_⟩
      have hpred : isNonMid { addr := p, channel := Channel.mid, ok := false } = false := by
        simp [isNonMid]
      simp [outState, countAttempts_snoc, hpred, h.2]

/-- One profile body keeps any initially-tracked address tracked and makes no
attempt for it. -/
theorem otherStep_addr_inv (env : Env) (p : String) (s : PState) (a : String)
    (h : (lruHas s.mid ttlMid env.now a || lruHas s.high ttlHigh env.now a) = true ∧
      countAttempts s.attempts (isForAddr a) = 0) :
    (lruHas (outState (otherStep env p s)).mid ttlMid env.now a ||
      lruHas (outState (otherStep env p s)).high ttlHigh env.now a) = true ∧
    countAttempts (outState (otherStep env p s)).attempts (isForAddr a) = 0 := by
  by_cases hskip : (lruHas s.mid ttlMid env.now p || lruHas s.high ttlHigh env.now p) = true
  · rw [otherStep_of_tracked env p s hskip]
    exact h
  · have hpa : p ≠ a := by
      intro hpa
      rw [hpa] at hskip
      exact hskip h.1
    have hskip' : (lruHas s.mid ttlMid env.now p || lruHas s.high ttlHigh env.now p) = false := by
      cases hsv : (lruHas s.mid ttlMid env.now p || lruHas s.high ttlHigh env.now p)
      · rfl
      · exact absurd hsv hskip
    rw [otherStep_of_untracked env p s hskip']
    rcases otherPairsLoop_char env p (env.pairs p) s with hcase | ⟨_, hcase⟩ | ⟨_, hcase⟩
    · rw [hcase]
      exact h
    · rw [hcase]
      have hlm : lruHas (lruSet s.mid p env.now) ttlMid env.now a = lruHas s.mid ttlMid env.now a := by
        apply lruHas_congr
        rw [lookupEntry_lruSet, if_neg hpa]
      constructor
      · simpa [outState, hlm] using h.1
      · simp [outState, countAttempts_snoc, isForAddr, hpa, h.2]
    · rw [hcase]
      constructor
      · simpa [outState] using h.1
      · simp [outState, countAttempts_snoc, isForAddr, hpa, h.2]

/-- C10: `checkOtherDexTokens` leaves the High ledger exactly as it found it,
every delivery attempt it makes goes to the Mid webhook (whatever the pair's
fdv), and it makes no attempt for any address already live in either ledger. -/
theorem C10_secondary_mid_only (env : Env) (mid high : Ledger) :
    (outState (checkOtherDexTokens env mid high)).high = high ∧
    countAttempts (outState (checkOtherDexTokens env mid high)).attempts isNonMid = 0 ∧
    (∀ a, (lruHas mid ttlMid env.now a || lruHas high ttlHigh env.now a) = true →
      countAttempts (outState (checkOtherDexTokens env mid high)).attempts (isForAddr a) = 0) := by
  have key := runSteps_out_inv (otherStep env)
    (fun s => s.high = high ∧ countAttempts s.attempts isNonMid = 0)
    (fun p s hs => otherStep_frame_inv env p s high hs)
    env.profiles { mid := mid, high := high, sent := 0, attempts := [] }
    ⟨rfl, by simp [countAttempts]⟩
  refine ⟨key.1, key.2, ?_⟩
  intro a ha
  have key2 := runSteps_out_inv (otherStep env)
    (fun s => (lruHas s.mid ttlMid env.now a || lruHas s.high ttlHigh env.now a) = true ∧
      countAttempts s.attempts (isForAddr a) = 0)
    (fun p s hs => otherStep_addr_inv env p s a hs)
    env.profiles { mid := mid, high := high, sent := 0, attempts := [] }
    ⟨ha, by simp [countAttempts]⟩
  exact key2.2

/-- C10 witness: a qualifying profile already tracked Mid is skipped, and the
High ledger comes back exactly empty. -/
theorem C10_secondary_mid_only_witness :
    (outState (checkOtherDexTokens envC10 [("B", (0 : ℚ))] [])).high = [] ∧
    countAttempts (outState (checkOtherDexTokens envC10 [("B", (0 : ℚ))] [])).attempts
      (isForAddr "B") = 0 := by
  have h := C10_secondary_mid_only envC10 [("B", (0 : ℚ))] []
  exact ⟨h.1, h.2.2 "B" (by decide)⟩

end PumpBot
